import Mathlib

/-!
Verification of the OpenStack amulet deployment helper
(charmhelpers/contrib/openstack/amulet/deployment.py).

The module is shallowly embedded: each Python method becomes a pure Lean
function.  Python `None`-able strings become `Option String`; Python
truthiness of an optional string (`if self.openstack:` and
`svc.get('location')`) is the predicate `strTruthy`; a Python `dict`
lookup that can raise `KeyError` (and an indexing that can raise
`IndexError`) returns `Option`.  Mutation of the service list in place is
modelled by returning the updated list; calls to the external deployment
driver (`self.d.configure`, `super()._add_services`,
`self.d.sentry.wait_for_messages`) are modelled by recording the calls in
the returned value.
-/

/-- Python truthiness of an optional string: `None` and the empty string
are falsy, every other string is truthy. -/
def strTruthy : Option String → Bool
  | none => false
  | some s => s != ""

/-- Python truthiness of an optional list argument: `None` and the empty
list are falsy (`if not use_source:`). -/
def listArgTruthy : Option (List String) → Bool
  | none => false
  | some l => !l.isEmpty

/-- A service dictionary, per the docstring of `_add_services`:
name, units, constraints and an optional charm location. -/
structure ServiceSpec where
  name : String
  units : Option Nat := none
  constraints : List (String × String) := []
  location : Option String := none
deriving Repr, DecidableEq

/-- The `base_charms` table of `_determine_branch_locations`: charms
outside ~openstack-charmers, mapped to the series they support. -/
def base_charms : List (String × List String) :=
  [("mysql", ["precise", "trusty"]),
   ("mongodb", ["precise", "trusty"]),
   ("nrpe", ["precise", "trusty", "wily", "xenial"])]

/-- The loop body of `_determine_branch_locations` for one service spec:
if a location is already (truthily) set it is kept; a charm in
`base_charms` gets `cs:<target_series>/<name>` where the target series
falls back to the last supported series; otherwise the stable or the
~openstack-charmers-next location is built from the requested series. -/
def resolveLocation (series : String) (stable : Bool) (svc : ServiceSpec) : ServiceSpec :=
  if strTruthy svc.location then svc
  else
    match base_charms.lookup svc.name with
    | some supported =>
      let target_series := if series ∈ supported then series else supported.getLastD ""
      { svc with location := some ("cs:" ++ target_series ++ "/" ++ svc.name) }
    | none =>
      if stable then
        { svc with location := some ("cs:" ++ series ++ "/" ++ svc.name) }
      else
        { svc with location := some ("cs:~openstack-charmers-next/" ++ series ++ "/" ++ svc.name) }

/-- `_determine_branch_locations`: resolve the location of every spec of
the other-services list (in-place mutation modelled as a map). -/
def _determine_branch_locations (series : String) (stable : Bool)
    (other_services : List ServiceSpec) : List ServiceSpec :=
  other_services.map (resolveLocation series stable)

/-- Default of the `use_source` argument of `_add_services`: charms which
should use the `source` config option. -/
def default_use_source : List String :=
  ["mysql", "mongodb", "rabbitmq-server", "ceph",
   "ceph-osd", "ceph-radosgw", "ceph-mon", "ceph-proxy"]

/-- Default of the `no_origin` argument of `_add_services`: charms which
can not use `openstack-origin`. -/
def default_no_origin : List String :=
  ["cinder-ceph", "hacluster", "neutron-openvswitch",
   "nrpe", "openvswitch-odl", "neutron-api-odl",
   "odl-controller", "cinder-backup", "nexentaedge-data",
   "nexentaedge-iscsi-gw", "nexentaedge-swift-gw",
   "cinder-nexentaedge", "nexentaedge-mgmt"]

/-- `if not arg: arg = dflt` — substitute the default when the optional
list argument is falsy (absent or empty). -/
def effectiveList (arg : Option (List String)) (dflt : List String) : List String :=
  if listArgTruthy arg then arg.getD [] else dflt

/-- The `if self.openstack:` loop of `_add_services`: the
`d.configure(name, {'openstack-origin': openstack})` calls it emits, as
(service name, config key, config value) triples. -/
def originCalls (openstack : Option String) (use_source no_origin : List String)
    (services : List ServiceSpec) : List (String × String × String) :=
  match openstack with
  | none => []
  | some o =>
    if o = "" then []
    else
      services.filterMap fun svc =>
        if svc.name ∈ use_source ++ no_origin then none
        else some (svc.name, "openstack-origin", o)

/-- The `if self.source:` loop of `_add_services`: the
`d.configure(name, {'source': source})` calls it emits. -/
def sourceCalls (source : Option String) (use_source no_origin : List String)
    (services : List ServiceSpec) : List (String × String × String) :=
  match source with
  | none => []
  | some s =>
    if s = "" then []
    else
      services.filterMap fun svc =>
        if svc.name ∈ use_source ∧ svc.name ∉ no_origin then
          some (svc.name, "source", s)
        else none

/-- The observable effect of `_add_services`: the arguments passed to the
base class `_add_services` (the driver), the service list after the
target service is appended, and the `d.configure` calls in order. -/
structure AddServicesResult where
  driver_add : ServiceSpec × List ServiceSpec
  services : List ServiceSpec
  configures : List (String × String × String)
deriving Repr, DecidableEq

/-- `_add_services`: resolve branch locations of the other services, hand
them with the target service to the driver, append the target service to
the list, substitute the defaults for falsy `use_source` / `no_origin`,
then run the `openstack-origin` loop followed by the `source` loop. -/
def _add_services (series : String) (stable : Bool) (openstack source : Option String)
    (this_service : ServiceSpec) (other_services : List ServiceSpec)
    (use_source no_origin : Option (List String)) : AddServicesResult :=
  let other_services := _determine_branch_locations series stable other_services
  let services := other_services ++ [this_service]
  let us := effectiveList use_source default_use_source
  let no := effectiveList no_origin default_no_origin
  { driver_add := (this_service, other_services)
    services := services
    configures := originCalls openstack us no services ++ sourceCalls source us no services }

/-- A status matcher handed to `_auto_wait_for_status`: a compiled regex
pattern, a literal string, or a literal set of strings. -/
inductive StatusMessage where
  | regex (pat : String) (ignoreCase : Bool)
  | literal (s : String)
  | literalSet (ss : List String)
deriving Repr, DecidableEq

/-- Python truthiness of the optional `message` argument: a compiled
pattern object is always truthy, a string or a set only when non-empty. -/
def messageTruthy : Option StatusMessage → Bool
  | none => false
  | some (.regex _ _) => true
  | some (.literal s) => s != ""
  | some (.literalSet ss) => !ss.isEmpty

/-- `_auto_wait_for_status`: either the `ValueError` raised when both
`exclude_services` and `include_only` are truthy (as `Except.error`), or
the single `sentry.wait_for_messages(service_messages, timeout)` call (as
`Except.ok`: the service-to-message mapping and the timeout).  The
unordered `list(set(all_services) - set(exclude_services))` is modelled
as a deduplicated filtered list. -/
def _auto_wait_for_status (all_services : List String) (message : Option StatusMessage)
    (exclude_services include_only : Option (List String)) (timeout : Nat) :
    Except String (List (String × StatusMessage) × Nat) :=
  if listArgTruthy exclude_services ∧ listArgTruthy include_only then
    Except.error "exclude_services can not be used with include_only"
  else
    let msg := match message with
      | some m => if messageTruthy (some m) then m else StatusMessage.regex ".*ready.*" true
      | none => StatusMessage.regex ".*ready.*" true
    let exclude := if listArgTruthy exclude_services then exclude_services.getD [] else []
    let services := if listArgTruthy include_only then include_only.getD []
      else (all_services.eraseDups).filter fun s => !exclude.contains s
    Except.ok (services.map fun s => (s, msg), timeout)

/-- The enum values `self.precise_essex .. self.yakkety_newton`, assigned
from `range(16)` in OpenStack release order. -/
def precise_essex : Nat := 0

def precise_folsom : Nat := 1

def precise_grizzly : Nat := 2

def precise_havana : Nat := 3

def precise_icehouse : Nat := 4

def trusty_icehouse : Nat := 5

def trusty_juno : Nat := 6

def utopic_juno : Nat := 7

def trusty_kilo : Nat := 8

def vivid_kilo : Nat := 9

def trusty_liberty : Nat := 10

def wily_liberty : Nat := 11

def trusty_mitaka : Nat := 12

def xenial_mitaka : Nat := 13

def xenial_newton : Nat := 14

def yakkety_newton : Nat := 15

/-- The `releases` dict of `_get_openstack_release`, keyed by
(series, openstack-origin). -/
def releases : List ((String × Option String) × Nat) :=
  [(("precise", none), precise_essex),
   (("precise", some "cloud:precise-folsom"), precise_folsom),
   (("precise", some "cloud:precise-grizzly"), precise_grizzly),
   (("precise", some "cloud:precise-havana"), precise_havana),
   (("precise", some "cloud:precise-icehouse"), precise_icehouse),
   (("trusty", none), trusty_icehouse),
   (("trusty", some "cloud:trusty-juno"), trusty_juno),
   (("trusty", some "cloud:trusty-kilo"), trusty_kilo),
   (("trusty", some "cloud:trusty-liberty"), trusty_liberty),
   (("trusty", some "cloud:trusty-mitaka"), trusty_mitaka),
   (("utopic", none), utopic_juno),
   (("vivid", none), vivid_kilo),
   (("wily", none), wily_liberty),
   (("xenial", none), xenial_mitaka),
   (("xenial", some "cloud:xenial-newton"), xenial_newton),
   (("yakkety", none), yakkety_newton)]

/-- `_get_openstack_release`: the dict lookup `releases[(series,
openstack)]`; `none` models the `KeyError` on an unmapped pair. -/
def _get_openstack_release (series : String) (openstack : Option String) : Option Nat :=
  releases.lookup (series, openstack)

/-- The `releases` OrderedDict of `_get_openstack_release_string`:
series to codename. -/
def release_strings : List (String × String) :=
  [("precise", "essex"),
   ("quantal", "folsom"),
   ("raring", "grizzly"),
   ("saucy", "havana"),
   ("trusty", "icehouse"),
   ("utopic", "juno"),
   ("vivid", "kilo"),
   ("wily", "liberty"),
   ("xenial", "mitaka"),
   ("yakkety", "newton")]

/-- Python `str.split(sep)` on character lists, fuel-recursive so that it
reduces by evaluation; the fuel is an upper bound on the number of
consumed characters and every call supplies the list length. -/
def pySplitAux (sep : List Char) : Nat → List Char → List (List Char)
  | _, [] => [[]]
  | 0, cs => [cs]
  | fuel + 1, c :: rest =>
    if sep.isPrefixOf (c :: rest) then
      [] :: pySplitAux sep fuel ((c :: rest).drop sep.length)
    else
      match pySplitAux sep fuel rest with
      | [] => [[c]]
      | h :: t => (c :: h) :: t

/-- Python `s.split(sep)` for a non-empty separator: split `s` at every
non-overlapping occurrence of `sep`, scanning left to right. -/
def pySplit (s sep : String) : List String :=
  if sep.data.isEmpty then [s]
  else (pySplitAux sep.data s.data.length s.data).map String.mk

/-- `_get_openstack_release_string`: with a truthy `openstack`, derive
the codename by string splitting (`split(':')[1]`, then split around
`'<series>-'` and take `[1]`, then `split('/')[0]`); `none` models the
`IndexError` when a marker is absent.  With a falsy `openstack`, look the
series up in `release_strings` (`none` models the `KeyError`). -/
def _get_openstack_release_string (series : String) (openstack : Option String) :
    Option String :=
  match openstack with
  | some o =>
    if o = "" then release_strings.lookup series
    else
      match (pySplit o ":").get? 1 with
      | none => none
      | some os_origin =>
        match (pySplit os_origin (series ++ "-")).get? 1 with
        | none => none
        | some tl => some ((pySplit tl "/").headD "")
  | none => release_strings.lookup series

/-- `get_ceph_expected_pools`, parametrised by the already-resolved
release ordinal (`self._get_openstack_release()` in the source): the
Kilo-or-later base pools or the Juno-or-earlier base pools, with the five
radosgw pools appended when the flag is set. -/
def get_ceph_expected_pools (release : Nat) (radosgw : Bool) : List String :=
  let pools := if release ≥ trusty_kilo then
      ["rbd", "cinder", "glance"]
    else
      ["data", "metadata", "rbd", "cinder", "glance"]
  if radosgw then
    pools ++ [".rgw.root", ".rgw.control", ".rgw", ".rgw.gc", ".users.uid"]
  else
    pools

/-- A string with the non-empty left part `p` prepended is non-empty. -/
theorem append_ne_empty_of_left (p q : String) (h : p ≠ "") : p ++ q ≠ "" := by
  intro hc
  have hd : p.data ++ q.data = ([] : List Char) := by
    rw [← String.data_append]
    exact String.ext_iff.mp hc
  exact h (String.ext_iff.mpr (List.append_eq_nil.mp hd).1)

/-- An optional string is truthy exactly when it holds a non-empty string. -/
theorem strTruthy_iff (o : Option String) : strTruthy o = true ↔ ∃ l, o = some l ∧ l ≠ "" := by
  cases o <;> simp [strTruthy]

/-- The location of a service spec that went through `resolveLocation` is
always truthy: either it was already truthy, or one of the three `cs:`
locations (all starting with a non-empty literal) was assigned. -/
theorem resolveLocation_truthy (series : String) (stable : Bool) (svc : ServiceSpec) :
    strTruthy (resolveLocation series stable svc).location = true := by
  unfold resolveLocation
  by_cases h : strTruthy svc.location = true
  · simp [h]
  · rw [if_neg h]
    cases hb : base_charms.lookup svc.name with
    | some supported =>
      rw [strTruthy_iff]
      refine ⟨_, rfl, ?_⟩
      exact append_ne_empty_of_left _ _
        (append_ne_empty_of_left _ _ (append_ne_empty_of_left _ _ (by decide)))
    | none =>
      by_cases hs : stable = true
      · rw [if_pos hs, strTruthy_iff]
        refine ⟨_, rfl, ?_⟩
        exact append_ne_empty_of_left _ _
          (append_ne_empty_of_left _ _ (append_ne_empty_of_left _ _ (by decide)))
      · rw [if_neg hs, strTruthy_iff]
        refine ⟨_, rfl, ?_⟩
        exact append_ne_empty_of_left _ _
          (append_ne_empty_of_left _ _ (append_ne_empty_of_left _ _ (by decide)))

/-- `resolveLocation` does not change the name of a spec. -/
theorem resolveLocation_name (series : String) (stable : Bool) (svc : ServiceSpec) :
    (resolveLocation series stable svc).name = svc.name := by
  unfold resolveLocation
  split
  · rfl
  · cases base_charms.lookup svc.name with
    | some supported => rfl
    | none => cases stable <;> simp

/-- C1: for a spec whose location is not already (truthily) set, the
resolver assigns: a `base_charms` entry gives `cs:<series>/<name>` with
the requested series when supported and otherwise the last supported
series; otherwise `cs:<series>/<name>` when stable, else
`cs:~openstack-charmers-next/<series>/<name>`. -/
theorem branch_location_assignment (series : String) (stable : Bool) (svc : ServiceSpec)
    (hloc : strTruthy svc.location = false) :
    (resolveLocation series stable svc).location = some (
      match base_charms.lookup svc.name with
      | some supported =>
        "cs:" ++ (if series ∈ supported then series else supported.getLastD "") ++
          "/" ++ svc.name
      | none =>
        if stable then "cs:" ++ series ++ "/" ++ svc.name
        else "cs:~openstack-charmers-next/" ++ series ++ "/" ++ svc.name) := by
  unfold resolveLocation
  rw [if_neg (by simp [hloc])]
  cases hb : base_charms.lookup svc.name with
  | some supported => simp
  | none => cases stable <;> simp

/-- Witness for C1: an unset-location mysql spec on series xenial (not in
the mysql supported list) resolves to the last supported series, trusty. -/
theorem branch_location_assignment_witness :
    strTruthy (ServiceSpec.location { name := "mysql" }) = false ∧
    (resolveLocation "xenial" true { name := "mysql" }).location = some "cs:trusty/mysql" :=
  ⟨rfl, branch_location_assignment "xenial" true { name := "mysql" } rfl⟩

/-- C7: a spec of the other-services list whose location is already a
non-empty string passes through `_determine_branch_locations` entirely
unchanged (same position, all fields intact). -/
theorem preset_location_unchanged (series : String) (stable : Bool)
    (others : List ServiceSpec) (i : Nat) (svc : ServiceSpec) (l : String)
    (hi : others[i]? = some svc) (hl : svc.location = some l) (hne : l ≠ "") :
    (_determine_branch_locations series stable others)[i]? = some svc := by
  unfold _determine_branch_locations
  rw [List.getElem?_map, hi]
  have hres : resolveLocation series stable svc = svc := by
    unfold resolveLocation
    rw [if_pos (by simp [strTruthy, hl, hne])]
  simp [hres]

/-- Witness for C7: a spec with a preset location is returned unchanged. -/
theorem preset_location_unchanged_witness :
    ([{ name := "nova-compute", units := some 2,
        location := some "cs:~bob/xenial/nova-compute" }] : List ServiceSpec)[0]? =
        some { name := "nova-compute", units := some 2,
               location := some "cs:~bob/xenial/nova-compute" } ∧
    (_determine_branch_locations "trusty" false
      [{ name := "nova-compute", units := some 2,
         location := some "cs:~bob/xenial/nova-compute" }])[0]? =
      some { name := "nova-compute", units := some 2,
             location := some "cs:~bob/xenial/nova-compute" } :=
  ⟨rfl, preset_location_unchanged "trusty" false _ 0 _ "cs:~bob/xenial/nova-compute"
    rfl rfl (by decide)⟩

/-- C8: every spec of the other-services list handed to the driver by
`_add_services` (after branch-location resolution) carries a non-empty
location string.  The policy tables (`base_charms`, `releases`,
`release_strings`) are plain constants of the embedding, read but never
written by the resolver. -/
theorem driver_sees_nonempty_locations (series : String) (stable : Bool)
    (openstack source : Option String) (this_service : ServiceSpec)
    (others : List ServiceSpec) (use_source no_origin : Option (List String))
    (svc : ServiceSpec)
    (h : svc ∈ (_add_services series stable openstack source this_service others
                  use_source no_origin).driver_add.2) :
    ∃ l, svc.location = some l ∧ l ≠ "" := by
  rw [← strTruthy_iff]
  have hmem : svc ∈ _determine_branch_locations series stable others := h
  unfold _determine_branch_locations at hmem
  obtain ⟨svc0, _, rfl⟩ := List.mem_map.mp hmem
  exact resolveLocation_truthy series stable svc0

/-- Witness for C8: with one location-less mysql spec, the list handed to
the driver consists of a spec with the non-empty location cs:trusty/mysql. -/
theorem driver_sees_nonempty_locations_witness :
    { name := "mysql", location := some "cs:trusty/mysql" } ∈
      (_add_services "xenial" true none none { name := "keystone" }
        [{ name := "mysql" }] none none).driver_add.2 ∧
    ∃ l, ServiceSpec.location { name := "mysql", location := some "cs:trusty/mysql" } =
      some l ∧ l ≠ "" :=
  ⟨by decide, driver_sees_nonempty_locations "xenial" true none none
    { name := "keystone" } [{ name := "mysql" }] none none _ (by decide)⟩

/-- Membership characterization of the `openstack-origin` configure
calls: a triple is emitted exactly when the origin string is truthy with
that value, some listed service bears the name, and the name is in
neither override list. -/
theorem mem_originCalls (openstack : Option String) (us no : List String)
    (services : List ServiceSpec) (n k v : String) :
    (n, k, v) ∈ originCalls openstack us no services ↔
      (k = "openstack-origin" ∧ openstack = some v ∧ v ≠ "" ∧
        (∃ svc ∈ services, svc.name = n) ∧ n ∉ us ∧ n ∉ no) := by
  cases openstack with
  | none => simp [originCalls]
  | some o =>
    rw [originCalls]
    by_cases ho : o = ""
    · rw [if_pos ho]
      subst ho
      simp only [List.not_mem_nil, false_iff, not_and]
      rintro - hv
      rw [Option.some.injEq] at hv
      subst hv
      intro hne
      exact absurd rfl hne
    · rw [if_neg ho]
      rw [List.mem_filterMap]
      constructor
      · rintro ⟨svc, hsvc, hf⟩
        by_cases hmem : svc.name ∈ us ++ no
        · rw [if_pos hmem] at hf
          exact absurd hf (by simp)
        · rw [if_neg hmem] at hf
          simp only [Option.some.injEq, Prod.mk.injEq] at hf
          obtain ⟨hn, hk, hv⟩ := hf
          subst hv
          subst hn
          rw [List.mem_append] at hmem
          push_neg at hmem
          exact ⟨hk.symm, rfl, ho, ⟨svc, hsvc, rfl⟩, hmem.1, hmem.2⟩
      · rintro ⟨rfl, hov, hvne, ⟨svc, hsvc, rfl⟩, hus, hno⟩
        rw [Option.some.injEq] at hov
        refine ⟨svc, hsvc, ?_⟩
        rw [if_neg (by rw [List.mem_append]; push_neg; exact ⟨hus, hno⟩)]
        rw [hov]

/-- Membership characterization of the `source` configure calls: a
triple is emitted exactly when the source string is truthy with that
value, some listed service bears the name, and the name is in
`use_source` but not in `no_origin`. -/
theorem mem_sourceCalls (source : Option String) (us no : List String)
    (services : List ServiceSpec) (n k v : String) :
    (n, k, v) ∈ sourceCalls source us no services ↔
      (k = "source" ∧ source = some v ∧ v ≠ "" ∧
        (∃ svc ∈ services, svc.name = n) ∧ n ∈ us ∧ n ∉ no) := by
  cases source with
  | none => simp [sourceCalls]
  | some s =>
    rw [sourceCalls]
    by_cases hs : s = ""
    · rw [if_pos hs]
      subst hs
      simp only [List.not_mem_nil, false_iff, not_and]
      rintro - hv
      rw [Option.some.injEq] at hv
      subst hv
      intro hne
      exact absurd rfl hne
    · rw [if_neg hs]
      rw [List.mem_filterMap]
      constructor
      · rintro ⟨svc, hsvc, hf⟩
        by_cases hmem : svc.name ∈ us ∧ svc.name ∉ no
        · rw [if_pos hmem] at hf
          simp only [Option.some.injEq, Prod.mk.injEq] at hf
          obtain ⟨hn, hk, hv⟩ := hf
          subst hv
          subst hn
          exact ⟨hk.symm, rfl, hs, ⟨svc, hsvc, rfl⟩, hmem.1, hmem.2⟩
        · rw [if_neg hmem] at hf
          exact absurd hf (by simp)
      · rintro ⟨rfl, hsv, hvne, ⟨svc, hsvc, rfl⟩, hus, hno⟩
        rw [Option.some.injEq] at hsv
        refine ⟨svc, hsvc, ?_⟩
        rw [if_pos ⟨hus, hno⟩]
        rw [hsv]

/-- Characterization of the whole configure-call sequence for a listed
service: the origin key is applied exactly when the origin is truthy and
the name avoids both override lists, the source key exactly when the
source is truthy and the name is in `use_source` but not `no_origin`,
never both, and a name in both lists never gets a source key. -/
theorem configure_characterization (openstack source : Option String)
    (us no : List String) (services : List ServiceSpec) (svc : ServiceSpec)
    (h : svc ∈ services) :
    ((∃ v, (svc.name, "openstack-origin", v) ∈
        originCalls openstack us no services ++ sourceCalls source us no services) ↔
      (strTruthy openstack = true ∧ svc.name ∉ us ∧ svc.name ∉ no)) ∧
    ((∃ v, (svc.name, "source", v) ∈
        originCalls openstack us no services ++ sourceCalls source us no services) ↔
      (strTruthy source = true ∧ svc.name ∈ us ∧ svc.name ∉ no)) ∧
    (¬ ((∃ v, (svc.name, "openstack-origin", v) ∈
          originCalls openstack us no services ++ sourceCalls source us no services) ∧
        (∃ v, (svc.name, "source", v) ∈
          originCalls openstack us no services ++ sourceCalls source us no services))) ∧
    (svc.name ∈ us → svc.name ∈ no →
      ∀ v, (svc.name, "source", v) ∉
        originCalls openstack us no services ++ sourceCalls source us no services) := by
  have horigin : ∀ v, (svc.name, "openstack-origin", v) ∈
      originCalls openstack us no services ++ sourceCalls source us no services ↔
      (openstack = some v ∧ v ≠ "" ∧ svc.name ∉ us ∧ svc.name ∉ no) := by
    intro v
    rw [List.mem_append, mem_originCalls, mem_sourceCalls]
    constructor
    · rintro (⟨-, hov, hvne, -, hus, hno⟩ | ⟨hk, -⟩)
      · exact ⟨hov, hvne, hus, hno⟩
      · exact absurd hk (by decide)
    · rintro ⟨hov, hvne, hus, hno⟩
      exact Or.inl ⟨rfl, hov, hvne, ⟨svc, h, rfl⟩, hus, hno⟩
  have hsource : ∀ v, (svc.name, "source", v) ∈
      originCalls openstack us no services ++ sourceCalls source us no services ↔
      (source = some v ∧ v ≠ "" ∧ svc.name ∈ us ∧ svc.name ∉ no) := by
    intro v
    rw [List.mem_append, mem_originCalls, mem_sourceCalls]
    constructor
    · rintro (⟨hk, -⟩ | ⟨-, hsv, hvne, -, hus, hno⟩)
      · exact absurd hk (by decide)
      · exact ⟨hsv, hvne, hus, hno⟩
    · rintro ⟨hsv, hvne, hus, hno⟩
      exact Or.inr ⟨rfl, hsv, hvne, ⟨svc, h, rfl⟩, hus, hno⟩
  refine ⟨?_, ?_, ?_, ?_⟩
  · constructor
    · rintro ⟨v, hv⟩
      obtain ⟨hov, hvne, hus, hno⟩ := (horigin v).mp hv
      exact ⟨(strTruthy_iff openstack).mpr ⟨v, hov, hvne⟩, hus, hno⟩
    · rintro ⟨hop, hus, hno⟩
      obtain ⟨v, hov, hvne⟩ := (strTruthy_iff openstack).mp hop
      exact ⟨v, (horigin v).mpr ⟨hov, hvne, hus, hno⟩⟩
  · constructor
    · rintro ⟨v, hv⟩
      obtain ⟨hsv, hvne, hus, hno⟩ := (hsource v).mp hv
      exact ⟨(strTruthy_iff source).mpr ⟨v, hsv, hvne⟩, hus, hno⟩
    · rintro ⟨hsrc, hus, hno⟩
      obtain ⟨v, hsv, hvne⟩ := (strTruthy_iff source).mp hsrc
      exact ⟨v, (hsource v).mpr ⟨hsv, hvne, hus, hno⟩⟩
  · rintro ⟨⟨v1, h1⟩, ⟨v2, h2⟩⟩
    exact absurd ((hsource v2).mp h2).2.2.1 ((horigin v1).mp h1).2.2.1
  · intro hus hno v hv
    exact absurd hno ((hsource v).mp hv).2.2.2

/-- C2: for every service of the combined list built by `_add_services`,
the `openstack-origin` key is applied exactly when the origin string is
truthy and the name is in neither effective override list, the `source`
key exactly when the source string is truthy and the name is in the
effective `use_source` but not in the effective `no_origin`; no service
gets both keys, and a name in both lists never gets a `source` key. -/
theorem config_key_application (series : String) (stable : Bool)
    (openstack source : Option String) (this_service : ServiceSpec)
    (others : List ServiceSpec) (use_source no_origin : Option (List String))
    (svc : ServiceSpec)
    (h : svc ∈ (_add_services series stable openstack source this_service others
                  use_source no_origin).services) :
    ((∃ v, (svc.name, "openstack-origin", v) ∈
        (_add_services series stable openstack source this_service others
          use_source no_origin).configures) ↔
      (strTruthy openstack = true ∧
       svc.name ∉ effectiveList use_source default_use_source ∧
       svc.name ∉ effectiveList no_origin default_no_origin)) ∧
    ((∃ v, (svc.name, "source", v) ∈
        (_add_services series stable openstack source this_service others
          use_source no_origin).configures) ↔
      (strTruthy source = true ∧
       svc.name ∈ effectiveList use_source default_use_source ∧
       svc.name ∉ effectiveList no_origin default_no_origin)) ∧
    (¬ ((∃ v, (svc.name, "openstack-origin", v) ∈
          (_add_services series stable openstack source this_service others
            use_source no_origin).configures) ∧
        (∃ v, (svc.name, "source", v) ∈
          (_add_services series stable openstack source this_service others
            use_source no_origin).configures))) ∧
    (svc.name ∈ effectiveList use_source default_use_source →
     svc.name ∈ effectiveList no_origin default_no_origin →
     ∀ v, (svc.name, "source", v) ∉
       (_add_services series stable openstack source this_service others
         use_source no_origin).configures) :=
  configure_characterization openstack source
    (effectiveList use_source default_use_source)
    (effectiveList no_origin default_no_origin)
    (_determine_branch_locations series stable others ++ [this_service]) svc h

/-- Witness for C2: with origin `distro` set and a keystone target (in
neither default override list), an `openstack-origin` configure call for
keystone is emitted. -/
theorem config_key_application_witness :
    ({ name := "keystone" } : ServiceSpec) ∈
      (_add_services "xenial" true (some "distro") none { name := "keystone" } []
        none none).services ∧
    ∃ v, ("keystone", "openstack-origin", v) ∈
      (_add_services "xenial" true (some "distro") none { name := "keystone" } []
        none none).configures :=
  ⟨by decide,
   ((config_key_application "xenial" true (some "distro") none { name := "keystone" } []
      none none { name := "keystone" } (by decide)).1).mpr
     ⟨by decide, by decide, by decide⟩⟩

/-- C9: passing empty lists for `use_source` / `no_origin` is identical
to omitting them — `if not use_source:` treats the empty list as falsy,
so the default name lists are substituted either way and the empty list
cannot disable the default overrides. -/
theorem empty_override_lists_use_defaults (series : String) (stable : Bool)
    (openstack source : Option String) (this_service : ServiceSpec)
    (others : List ServiceSpec) :
    effectiveList (some []) default_use_source = default_use_source ∧
    effectiveList (some []) default_no_origin = default_no_origin ∧
    _add_services series stable openstack source this_service others
        (some []) (some []) =
      _add_services series stable openstack source this_service others none none :=
  ⟨rfl, rfl, rfl⟩

/-- C10: `_add_services` appends the target service to the (resolved)
other-services list, so the target is covered by the configuration
loops, but the target itself never goes through branch-location
resolution. -/
theorem target_appended_not_resolved (series : String) (stable : Bool)
    (openstack source : Option String) (this_service : ServiceSpec)
    (others : List ServiceSpec) (use_source no_origin : Option (List String)) :
    (_add_services series stable openstack source this_service others
        use_source no_origin).services =
      _determine_branch_locations series stable others ++ [this_service] ∧
    this_service ∈ (_add_services series stable openstack source this_service others
        use_source no_origin).services ∧
    (∀ v, openstack = some v → v ≠ "" →
      this_service.name ∉ effectiveList use_source default_use_source →
      this_service.name ∉ effectiveList no_origin default_no_origin →
      (this_service.name, "openstack-origin", v) ∈
        (_add_services series stable openstack source this_service others
          use_source no_origin).configures) ∧
    (∀ v, source = some v → v ≠ "" →
      this_service.name ∈ effectiveList use_source default_use_source →
      this_service.name ∉ effectiveList no_origin default_no_origin →
      (this_service.name, "source", v) ∈
        (_add_services series stable openstack source this_service others
          use_source no_origin).configures) := by
  refine ⟨rfl, ?_, ?_, ?_⟩
  · exact List.mem_append.mpr (Or.inr (List.mem_singleton.mpr rfl))
  · intro v hov hvne hus hno
    refine List.mem_append.mpr (Or.inl ?_)
    rw [mem_originCalls]
    exact ⟨rfl, hov, hvne,
      ⟨this_service, List.mem_append.mpr (Or.inr (List.mem_singleton.mpr rfl)), rfl⟩,
      hus, hno⟩
  · intro v hsv hvne hus hno
    refine List.mem_append.mpr (Or.inr ?_)
    rw [mem_sourceCalls]
    exact ⟨rfl, hsv, hvne,
      ⟨this_service, List.mem_append.mpr (Or.inr (List.mem_singleton.mpr rfl)), rfl⟩,
      hus, hno⟩

/-- Witness for C10: a keystone target with origin `cloud:xenial-newton`
set receives an `openstack-origin` configure call even though it was
never branch-resolved. -/
theorem target_appended_not_resolved_witness :
    ("keystone" : String) ∉ effectiveList none default_use_source ∧
    ("keystone" : String) ∉ effectiveList none default_no_origin ∧
    ("keystone", "openstack-origin", "cloud:xenial-newton") ∈
      (_add_services "xenial" true (some "cloud:xenial-newton") none
        { name := "keystone" } [{ name := "mysql" }] none none).configures :=
  ⟨by decide, by decide,
   (target_appended_not_resolved "xenial" true (some "cloud:xenial-newton") none
      { name := "keystone" } [{ name := "mysql" }] none none).2.2.1
     "cloud:xenial-newton" rfl (by decide) (by decide) (by decide)⟩

/-- C6: when both `exclude_services` and `include_only` are truthy,
`_auto_wait_for_status` raises the `ValueError` immediately, so no
`sentry.wait_for_messages` call (the `Except.ok` payload) is produced. -/
theorem conflicting_selection_raises (all_services : List String)
    (message : Option StatusMessage)
    (exclude_services include_only : Option (List String)) (timeout : Nat)
    (hex : listArgTruthy exclude_services = true)
    (hinc : listArgTruthy include_only = true) :
    _auto_wait_for_status all_services message exclude_services include_only timeout =
      Except.error "exclude_services can not be used with include_only" := by
  unfold _auto_wait_for_status
  rw [if_pos ⟨hex, hinc⟩]

/-- Witness for C6: two singleton selections conflict and produce the
error, never a wait call. -/
theorem conflicting_selection_raises_witness :
    listArgTruthy (some ["mysql"]) = true ∧
    listArgTruthy (some ["keystone"]) = true ∧
    _auto_wait_for_status ["mysql", "keystone"] none (some ["mysql"])
        (some ["keystone"]) 1800 =
      Except.error "exclude_services can not be used with include_only" :=
  ⟨rfl, rfl, conflicting_selection_raises ["mysql", "keystone"] none (some ["mysql"])
    (some ["keystone"]) 1800 rfl rfl⟩

/-- Counterexample to C3: the pair (precise, cloud:precise-newton) has no
ReleaseTable entry — the ordinal resolver fails on it — yet the codename
resolver returns the codename string newton instead of failing, because
with a truthy origin it only string-splits and never consults the table. -/
theorem codename_resolver_counterexample :
    releases.lookup ("precise", some "cloud:precise-newton") = none ∧
    _get_openstack_release "precise" (some "cloud:precise-newton") = none ∧
    _get_openstack_release_string "precise" (some "cloud:precise-newton") = some "newton" :=
  ⟨by decide, by decide, by decide⟩

/-- C3 amended: the ordinal resolver fails on every (series, origin) pair
without a ReleaseTable entry; the codename resolver consults its own
series table only when the origin is falsy (failing there exactly when
the series is unmapped), while with a truthy origin it derives the
codename by string splitting and can return a codename even for a pair
the ReleaseTable does not contain. -/
theorem release_resolvers_amended (series : String) (openstack : Option String)
    (h : releases.lookup (series, openstack) = none) :
    _get_openstack_release series openstack = none ∧
    (strTruthy openstack = false →
      _get_openstack_release_string series openstack = release_strings.lookup series) ∧
    _get_openstack_release_string "precise" (some "cloud:precise-newton") = some "newton" := by
  refine ⟨h, ?_, by decide⟩
  intro ht
  cases openstack with
  | none => rfl
  | some o =>
    have ho : o = "" := by simpa [strTruthy] using ht
    simp only [_get_openstack_release_string]
    rw [if_pos ho]

/-- Witness for C3 (amended): the unmapped pair from the claim satisfies
the hypothesis and the ordinal resolver fails there. -/
theorem release_resolvers_amended_witness :
    releases.lookup ("precise", some "cloud:precise-newton") = none ∧
    _get_openstack_release "precise" (some "cloud:precise-newton") = none :=
  ⟨by decide,
   (release_resolvers_amended "precise" (some "cloud:precise-newton") (by decide)).1⟩

/-- C4: the 16 release ordinals are strictly increasing in chronological
OpenStack order (Essex through Newton), every table entry carries one of
them, trusty with no origin resolves to the (trusty) Icehouse ordinal,
xenial with cloud:xenial-newton to the Newton ordinal, and the unmapped
precise/cloud:precise-newton pair fails the lookup. -/
theorem release_ordinal_resolution :
    List.Pairwise (· < ·)
      [precise_essex, precise_folsom, precise_grizzly, precise_havana,
       precise_icehouse, trusty_icehouse, trusty_juno, utopic_juno,
       trusty_kilo, vivid_kilo, trusty_liberty, wily_liberty,
       trusty_mitaka, xenial_mitaka, xenial_newton, yakkety_newton] ∧
    releases.length = 16 ∧
    (∀ p ∈ releases, p.2 ∈
      [precise_essex, precise_folsom, precise_grizzly, precise_havana,
       precise_icehouse, trusty_icehouse, trusty_juno, utopic_juno,
       trusty_kilo, vivid_kilo, trusty_liberty, wily_liberty,
       trusty_mitaka, xenial_mitaka, xenial_newton, yakkety_newton]) ∧
    _get_openstack_release "trusty" none = some trusty_icehouse ∧
    _get_openstack_release "xenial" (some "cloud:xenial-newton") = some xenial_newton ∧
    _get_openstack_release "precise" (some "cloud:precise-newton") = none := by
  decide

/-- C5: Kilo or later derives the 3-pool base list, earlier releases the
5-pool base list, in insertion order; the radosgw flag appends the five
fixed gateway pools regardless of release, with no sorting or
deduplication. -/
theorem ceph_pool_derivation (release : Nat) :
    (release ≥ trusty_kilo →
      get_ceph_expected_pools release false = ["rbd", "cinder", "glance"]) ∧
    (release < trusty_kilo →
      get_ceph_expected_pools release false =
        ["data", "metadata", "rbd", "cinder", "glance"]) ∧
    get_ceph_expected_pools release true =
      get_ceph_expected_pools release false ++
        [".rgw.root", ".rgw.control", ".rgw", ".rgw.gc", ".users.uid"] := by
  refine ⟨?_, ?_, ?_⟩
  · intro h
    simp [get_ceph_expected_pools, h]
  · intro h
    simp [get_ceph_expected_pools, Nat.not_le.mpr h]
  · by_cases hc : release ≥ trusty_kilo <;> simp [get_ceph_expected_pools, hc]

/-- Witness for C5: the Kilo ordinal takes the 3-pool branch and the Juno
ordinal the 5-pool branch. -/
theorem ceph_pool_derivation_witness :
    (trusty_kilo ≥ trusty_kilo ∧
      get_ceph_expected_pools trusty_kilo false = ["rbd", "cinder", "glance"]) ∧
    (trusty_juno < trusty_kilo ∧
      get_ceph_expected_pools trusty_juno false =
        ["data", "metadata", "rbd", "cinder", "glance"]) :=
  ⟨⟨by decide, (ceph_pool_derivation trusty_kilo).1 (by decide)⟩,
   ⟨by decide, (ceph_pool_derivation trusty_juno).2.1 (by decide)⟩⟩
